import Mathlib

/-!
Verification of the Moderntensor key-management subsystem.

The repository ships the test suite `tests/keymanager/test_wallet_manager.py`
and the stub `sdk/network/app/repository/base_repository.py`.  The key-manager
implementation itself (`sdk/keymanager/encryption_utils.py`,
`coldkey_manager.py`, `hotkey_manager.py`, `wallet_manager.py`) is not part of
the available sources, so its operations are modelled from the specification
and checked against it; `BaseRepository` is embedded directly from its source.
-/

namespace Moderntensor

/-- Byte strings are modelled as lists of naturals (one per byte). -/
abbrev Bytes := List Nat

/-- Modelled from the spec: a salt is 16 random bytes persisted per
coldkey directory (`salt.bin`). -/
abbrev Salt := Bytes

/-- Modelled from the spec: `generate_encryption_key(password, salt)` is a
deterministic function of the two inputs producing the symmetric key; the
derivation itself (PBKDF2 in `encryption_utils.py`, which is missing from the
sources) is abstracted as the injective pairing of password and salt, which
keeps exactly the contract the spec states: same inputs give the same key and
different inputs give a different key. -/
structure DerivedKey where
  password : String
  salt : Salt
deriving DecidableEq

/-- Modelled from the spec: key derivation as the pairing of its inputs. -/
def generate_encryption_key (password : String) (salt : Salt) : DerivedKey :=
  ⟨password, salt⟩

/-- Modelled from the spec: an authenticated-encryption token records the key
it was produced under together with the protected payload; decryption under a
different key fails, which is the sole mechanism for detecting a wrong
password. -/
structure Token where
  key : DerivedKey
  payload : Bytes
deriving DecidableEq

/-- Modelled from the spec: a `CipherSuite` is a symmetric
authenticated-encryption instance bound to one derived key (Fernet in the
missing `encryption_utils.py`). -/
structure CipherSuite where
  key : DerivedKey
deriving DecidableEq

/-- Modelled from the spec: encryption binds the payload to the suite's key. -/
def CipherSuite.encrypt (c : CipherSuite) (x : Bytes) : Token :=
  ⟨c.key, x⟩

/-- Modelled from the spec: decryption succeeds exactly when the token was
produced under the same key; otherwise it fails with a decryption error,
modelled as `none`. -/
def CipherSuite.decrypt (c : CipherSuite) (t : Token) : Option Bytes :=
  if t.key = c.key then some t.payload else none

/-- Modelled from the spec: the on-disk hotkey registry entry
`{address, encrypted_data}` stored in `hotkeys.json`. -/
structure HotkeyEntry where
  address : String
  encrypted_data : Token
deriving DecidableEq

/-- Modelled from the spec: the registry object `{hotkeys: {name -> entry}}`
persisted as `hotkeys.json`. -/
structure Registry where
  hotkeys : List (String × HotkeyEntry)
deriving DecidableEq

/-- Modelled from the spec: the contents of one coldkey directory under
`base_dir/name`: the optional `salt.bin`, `mnemonic.enc` and `hotkeys.json`
files (`none` models an absent file). -/
structure ColdkeyDir where
  salt : Option Salt
  mnemonic_enc : Option Token
  hotkeys_json : Option Registry
deriving DecidableEq

/-- A directory that exists but holds none of the three files yet. -/
def ColdkeyDir.empty : ColdkeyDir := ⟨none, none, none⟩

/-- Association-list lookup keyed by strings; this models Python dictionary
indexing for the in-memory index and the registry maps. -/
def alookup {α : Type} : List (String × α) → String → Option α
  | [], _ => none
  | (k', v) :: rest, k => if k' = k then some v else alookup rest k

/-- Removal of a key; models `dict.pop(name, None)`. -/
def aerase {α : Type} : List (String × α) → String → List (String × α)
  | [], _ => []
  | (k', v) :: rest, k =>
      if k' = k then aerase rest k else (k', v) :: aerase rest k

/-- Insert-or-replace of a binding; models `d[k] = v` on a Python dict. -/
def ainsert {α : Type} (l : List (String × α)) (k : String) (v : α) :
    List (String × α) :=
  (k, v) :: aerase l k

theorem alookup_ainsert_self {α : Type} (l : List (String × α)) (k : String)
    (v : α) : alookup (ainsert l k v) k = some v := by
  simp [ainsert, alookup]

theorem alookup_aerase_self {α : Type} (l : List (String × α)) (k : String) :
    alookup (aerase l k) k = none := by
  induction l with
  | nil => rfl
  | cons p rest ih =>
      obtain ⟨k', v⟩ := p
      by_cases h : k' = k <;> simp [aerase, alookup, h, ih]

/-- Modelled from the spec: `get_or_create_salt(dir)` reads the salt file if it
exists and otherwise writes freshly generated random bytes to it, creating the
directory on first use.  The 16 random bytes drawn by the missing
implementation are passed in as the `rnd` argument; `d` is the directory state
before the call (`none` when the directory does not exist yet) and the second
component of the result is the directory state after the call. -/
def get_or_create_salt (rnd : Salt) (d : Option ColdkeyDir) :
    Salt × ColdkeyDir :=
  match (d.getD ColdkeyDir.empty).salt with
  | some s => (s, d.getD ColdkeyDir.empty)
  | none => (rnd, { d.getD ColdkeyDir.empty with salt := some rnd })

/-- Modelled from the spec: `get_cipher_suite(password, dir)` obtains or
creates the salt for the directory, derives the key from the password and the
salt, and returns the ready cipher suite together with the directory state
after the salt handling. -/
def get_cipher_suite (rnd : Salt) (password : String) (d : Option ColdkeyDir) :
    CipherSuite × ColdkeyDir :=
  (⟨generate_encryption_key password (get_or_create_salt rnd d).1⟩,
   (get_or_create_salt rnd d).2)

theorem gocs_salt_eq (rnd : Salt) (d : Option ColdkeyDir) :
    (get_or_create_salt rnd d).2.salt = some (get_or_create_salt rnd d).1 := by
  unfold get_or_create_salt
  cases d with
  | none => rfl
  | some dir =>
      cases h : dir.salt with
      | none => simp [h]
      | some s => simp [h]

/-- Modelled from the spec: one in-memory index entry
`{wallet: <decrypted seed material>, hotkeys: {name -> entry}}`.  The cipher
suite scoped to the coldkey's directory is retained alongside the wallet
material so the hotkey operations can encrypt private-key payloads for that
directory without re-deriving from a password (spec 4.3: "encrypts the
private-key bytes using a CipherSuite scoped to that coldkey's directory"). -/
structure ColdkeyEntry where
  wallet : Bytes
  cipher : CipherSuite
  hotkeys : List (String × HotkeyEntry)
deriving DecidableEq

/-- Modelled from the spec: the state a store or facade instance owns: the
base directory's sub-directories keyed by coldkey name, and the in-memory
index shared between the coldkey and hotkey managers. -/
structure WalletState where
  fs : List (String × ColdkeyDir)
  coldkeys : List (String × ColdkeyEntry)
deriving DecidableEq

/-- Modelled from the spec: the error kinds of section 7: duplicate name,
missing directory or file or index entry, and authenticated-decryption
failure (the invalid-password signal). -/
inductive KMError where
  | duplicate (msg : String)
  | notFound (msg : String)
  | invalidPassword (msg : String)
deriving DecidableEq

/-- Modelled from the spec: `create_coldkey(name, password)` fails with a
duplicate error when `name` is already in the index, before any disk
side effect; otherwise it obtains a cipher suite for the fresh sub-directory
`base_dir/name` (creating the directory and salt file), encrypts the freshly
generated seed material (passed in as `seed`, the randomness the missing
implementation draws), writes `mnemonic.enc` and an empty `hotkeys.json`, and
inserts the entry into the index.  Errors carry no state: a failed call
leaves the caller's state untouched. -/
def create_coldkey (seed : Bytes) (rnd : Salt) (st : WalletState)
    (name password : String) : Except KMError WalletState :=
  if (alookup st.coldkeys name).isSome then
    .error (.duplicate ("Coldkey '" ++ name ++ "' already exists."))
  else
    let cd := get_cipher_suite rnd password (alookup st.fs name)
    let dir1 : ColdkeyDir :=
      { cd.2 with mnemonic_enc := some (cd.1.encrypt seed),
                  hotkeys_json := some ⟨[]⟩ }
    .ok { fs := ainsert st.fs name dir1,
          coldkeys := ainsert st.coldkeys name ⟨seed, cd.1, []⟩ }

/-- Modelled from the spec: `load_coldkey(name, password)` fails with a
not-found error when `base_dir/name` or its `mnemonic.enc` is missing;
otherwise it derives the cipher suite from the password and the persisted
salt, and on decryption failure fails with an invalid-password error; on
success it reads the registry file and populates the index entry, overwriting
any stale one.  Errors carry no state, so a failed load leaves the index
entry absent or unchanged. -/
def load_coldkey (rnd : Salt) (st : WalletState) (name password : String) :
    Except KMError WalletState :=
  match alookup st.fs name with
  | none => .error (.notFound ("Coldkey directory '" ++ name ++ "' not found."))
  | some d =>
      match d.mnemonic_enc with
      | none =>
          .error (.notFound ("mnemonic.enc for '" ++ name ++ "' not found."))
      | some tok =>
          let cd := get_cipher_suite rnd password (some d)
          match cd.1.decrypt tok with
          | none =>
              .error (.invalidPassword
                ("Invalid password: failed to decrypt mnemonic for '" ++
                  name ++ "'."))
          | some wallet =>
              .ok { fs := ainsert st.fs name cd.2,
                    coldkeys := ainsert st.coldkeys name
                      ⟨wallet, cd.1, (d.hotkeys_json.getD ⟨[]⟩).hotkeys⟩ }

/-- Modelled from the spec: full-content replace of a coldkey's registry file
with the given hotkeys map (spec 4.3: "file write must fully replace the
registry so it stays authoritative"). -/
def write_registry (fs : List (String × ColdkeyDir)) (name : String)
    (hks : List (String × HotkeyEntry)) : List (String × ColdkeyDir) :=
  match alookup fs name with
  | none => fs
  | some d => ainsert fs name { d with hotkeys_json := some ⟨hks⟩ }

/-- Modelled from the spec: `generate_hotkey(coldkey_name, hotkey_name)`
requires the coldkey in the index, rejects a duplicate hotkey name before any
mutation, derives address and private-key bytes from the wallet material via
the external derivation collaborator `derive`, encrypts the key bytes under
the coldkey's cipher suite, records `{address, encrypted_data}` in the
in-memory map and in the registry file, and returns the encrypted payload. -/
def generate_hotkey (derive : Bytes → String → String × Bytes)
    (st : WalletState) (coldkey_name hotkey_name : String) :
    Except KMError (Token × WalletState) :=
  match alookup st.coldkeys coldkey_name with
  | none =>
      .error (.notFound
        ("Coldkey '" ++ coldkey_name ++ "' not found in memory."))
  | some entry =>
      if (alookup entry.hotkeys hotkey_name).isSome then
        .error (.duplicate
          ("Hotkey '" ++ hotkey_name ++ "' already exists."))
      else
        let ak := derive entry.wallet hotkey_name
        let enc := entry.cipher.encrypt ak.2
        let hks := ainsert entry.hotkeys hotkey_name ⟨ak.1, enc⟩
        .ok (enc,
          { fs := write_registry st.fs coldkey_name hks,
            coldkeys := ainsert st.coldkeys coldkey_name
              { entry with hotkeys := hks } })

/-- ASCII lower-casing of one character, as Python's `str.lower` acts on the
answers at hand. -/
def lower_char (c : Char) : Char :=
  if 65 ≤ c.toNat ∧ c.toNat ≤ 90 then Char.ofNat (c.toNat + 32) else c

/-- Lower-casing of a string, character by character. -/
def lower_string (s : String) : String := ⟨s.data.map lower_char⟩

/-- Modelled from the spec: the interactive overwrite confirmation accepts
exactly the case-insensitive answers "yes" and "y"; anything else declines. -/
def is_affirmative (answer : String) : Bool :=
  lower_string answer == "yes" || lower_string answer == "y"

/-- Result of an import: the state afterwards and whether the
canceled-overwrite warning was logged. -/
structure ImportResult where
  state : WalletState
  warned : Bool
deriving DecidableEq

/-- Modelled from the spec: `import_hotkey(coldkey_name, encrypted_data,
hotkey_name, overwrite)` inserts directly when the hotkey name is new; when it
already exists and `overwrite` is false it asks for confirmation (the user's
answer is passed in as `answer`): on decline it logs a warning and returns
without error and without mutation, and on confirmation or when `overwrite`
is true it replaces the stored `encrypted_data` in the in-memory map and the
registry file. -/
def import_hotkey (derive : Bytes → String → String × Bytes) (answer : String)
    (st : WalletState) (coldkey_name : String) (encrypted_data : Token)
    (hotkey_name : String) (overwrite : Bool) : Except KMError ImportResult :=
  match alookup st.coldkeys coldkey_name with
  | none =>
      .error (.notFound
        ("Coldkey '" ++ coldkey_name ++ "' not found in memory."))
  | some entry =>
      match alookup entry.hotkeys hotkey_name with
      | none =>
          let ak := derive entry.wallet hotkey_name
          let hks := ainsert entry.hotkeys hotkey_name ⟨ak.1, encrypted_data⟩
          .ok ⟨{ fs := write_registry st.fs coldkey_name hks,
                 coldkeys := ainsert st.coldkeys coldkey_name
                   { entry with hotkeys := hks } }, false⟩
      | some old =>
          if overwrite || is_affirmative answer then
            let hks :=
              ainsert entry.hotkeys hotkey_name ⟨old.address, encrypted_data⟩
            .ok ⟨{ fs := write_registry st.fs coldkey_name hks,
                   coldkeys := ainsert st.coldkeys coldkey_name
                     { entry with hotkeys := hks } }, false⟩
          else
            .ok ⟨st, true⟩

/-- Embedded from `src/sdk/network/app/repository/base_repository.py`:
`BaseRepository.__init__` stores only the model class, which here is the type
parameter `T`; the class carries no other state. -/
structure BaseRepository (T : Type) : Type where
  mk ::

/-- Embedded from the source: `read_by_id(self, id, eager=False)` returns
`None` unconditionally. -/
def BaseRepository.read_by_id {T : Type} (_r : BaseRepository T) (_id : Int)
    (_eager : Bool) : Option T := none

/-- Embedded from the source: `create(self, schema)` returns `None`. -/
def BaseRepository.create {T : Type} (_r : BaseRepository T) (_schema : T) :
    Option T := none

/-- Embedded from the source: `update(self, id, schema)` returns `None`. -/
def BaseRepository.update {T : Type} (_r : BaseRepository T) (_id : Int)
    (_schema : T) : Option T := none

/-- Embedded from the source: `update_attr(self, id, field, value)` returns
`None`. -/
def BaseRepository.update_attr {T V : Type} (_r : BaseRepository T)
    (_id : Int) (_fld : String) (_value : V) : Option T := none

/-- Embedded from the source: `whole_update(self, id, schema)` returns
`None`. -/
def BaseRepository.whole_update {T : Type} (_r : BaseRepository T) (_id : Int)
    (_schema : T) : Option T := none

/-- Embedded from the source: `delete_by_id(self, id)` returns `None`. -/
def BaseRepository.delete_by_id {T : Type} (_r : BaseRepository T)
    (_id : Int) : Option T := none

/-!
Theorems for the claims.
-/

/-- C8: for every directory, the first call to `get_or_create_salt` (the
directory holds no salt yet, or does not exist) creates the salt file holding
the 16 freshly drawn bytes and returns them, and every subsequent call on the
resulting directory returns bytes identical to the first call's result, with
the directory state unchanged: the persisted salt never changes. -/
theorem get_or_create_salt_spec (rnd : Salt) (d : Option ColdkeyDir)
    (hfirst : (d.getD ColdkeyDir.empty).salt = none) (hlen : rnd.length = 16) :
    (get_or_create_salt rnd d).1.length = 16 ∧
    (get_or_create_salt rnd d).2.salt = some (get_or_create_salt rnd d).1 ∧
    ∀ rnd2 : Salt,
      get_or_create_salt rnd2 (some (get_or_create_salt rnd d).2) =
        get_or_create_salt rnd d := by
  have h1 : get_or_create_salt rnd d =
      (rnd, { d.getD ColdkeyDir.empty with salt := some rnd }) := by
    unfold get_or_create_salt
    rw [hfirst]
  refine ⟨by rw [h1]; exact hlen, by rw [h1], ?_⟩
  intro rnd2
  rw [h1]
  rfl

theorem get_or_create_salt_spec_witness :
    ((some ColdkeyDir.empty).getD ColdkeyDir.empty).salt = none ∧
    (List.range 16).length = 16 ∧
    ((get_or_create_salt (List.range 16) (some ColdkeyDir.empty)).1.length
        = 16 ∧
      (get_or_create_salt (List.range 16) (some ColdkeyDir.empty)).2.salt =
        some (get_or_create_salt (List.range 16) (some ColdkeyDir.empty)).1 ∧
      ∀ rnd2 : Salt,
        get_or_create_salt rnd2
            (some (get_or_create_salt (List.range 16)
              (some ColdkeyDir.empty)).2) =
          get_or_create_salt (List.range 16) (some ColdkeyDir.empty)) :=
  ⟨rfl, rfl,
    get_or_create_salt_spec (List.range 16) (some ColdkeyDir.empty) rfl rfl⟩

/-- Concrete 16-byte salt used by the witnesses. -/
def rnd16 : Salt := List.range 16

/-- Empty store state used by the witnesses. -/
def st0 : WalletState := ⟨[], []⟩

/-- Cipher suite of the witness coldkey, derived from password "pw". -/
def ck0 : CipherSuite := ⟨⟨"pw", rnd16⟩⟩

/-- Witness index entry: wallet material `[1, 2]`, no hotkeys. -/
def entry0 : ColdkeyEntry := ⟨[1, 2], ck0, []⟩

/-- Witness coldkey directory as produced by creation. -/
def dir0 : ColdkeyDir := ⟨some rnd16, some (ck0.encrypt [1, 2]), some ⟨[]⟩⟩

/-- Witness state holding one coldkey named "ck". -/
def stA : WalletState := ⟨[("ck", dir0)], [("ck", entry0)]⟩

/-- C1: for every fresh name (no index entry yet) and any password, a
successful `create_coldkey` creates the coldkey sub-directory containing an
encrypted-seed file and a hotkey-registry file holding an empty registry, and
inserts an index entry for the name containing the decrypted wallet material
and an empty hotkeys map. -/
theorem create_coldkey_fresh_spec (seed : Bytes) (rnd : Salt)
    (st : WalletState) (name password : String)
    (h : alookup st.coldkeys name = none) :
    ∃ st', create_coldkey seed rnd st name password = .ok st' ∧
      (∃ d, alookup st'.fs name = some d ∧
        (∃ tok, d.mnemonic_enc = some tok) ∧ d.hotkeys_json = some ⟨[]⟩) ∧
      (∃ e, alookup st'.coldkeys name = some e ∧ e.wallet = seed ∧
        e.hotkeys = []) := by
  have hcreate : create_coldkey seed rnd st name password = .ok
      { fs := ainsert st.fs name
          { (get_cipher_suite rnd password (alookup st.fs name)).2 with
            mnemonic_enc := some
              ((get_cipher_suite rnd password (alookup st.fs name)).1.encrypt
                seed),
            hotkeys_json := some ⟨[]⟩ },
        coldkeys := ainsert st.coldkeys name
          ⟨seed, (get_cipher_suite rnd password (alookup st.fs name)).1,
            []⟩ } := by
    unfold create_coldkey
    rw [h]
    rfl
  exact ⟨_, hcreate, ⟨_, alookup_ainsert_self _ _ _, ⟨_, rfl⟩, rfl⟩,
    ⟨_, alookup_ainsert_self _ _ _, rfl, rfl⟩⟩

theorem create_coldkey_fresh_spec_witness :
    alookup st0.coldkeys "ck" = none ∧
    (∃ st', create_coldkey [1, 2] rnd16 st0 "ck" "pw" = .ok st' ∧
      (∃ d, alookup st'.fs "ck" = some d ∧
        (∃ tok, d.mnemonic_enc = some tok) ∧ d.hotkeys_json = some ⟨[]⟩) ∧
      (∃ e, alookup st'.coldkeys "ck" = some e ∧ e.wallet = [1, 2] ∧
        e.hotkeys = [])) :=
  ⟨rfl, create_coldkey_fresh_spec [1, 2] rnd16 st0 "ck" "pw" rfl⟩

/-- C4: for every name already present in the index, `create_coldkey` fails
with a duplicate error for any password.  The duplicate test is the first
step of the operation and an error result carries no state, so the failing
call creates no directory, file or index entry and leaves the existing
coldkey untouched. -/
theorem create_coldkey_duplicate_spec (seed : Bytes) (rnd : Salt)
    (st : WalletState) (name password : String) (e : ColdkeyEntry)
    (h : alookup st.coldkeys name = some e) :
    ∃ m, create_coldkey seed rnd st name password = .error (.duplicate m) := by
  refine ⟨"Coldkey '" ++ name ++ "' already exists.", ?_⟩
  unfold create_coldkey
  rw [h]
  rfl

theorem create_coldkey_duplicate_spec_witness :
    alookup stA.coldkeys "ck" = some entry0 ∧
    ∃ m, create_coldkey [3] rnd16 stA "ck" "other" = .error (.duplicate m) :=
  ⟨rfl, create_coldkey_duplicate_spec [3] rnd16 stA "ck" "other" entry0 rfl⟩

/-- C2: `load_coldkey` fails with a not-found error when the coldkey
directory or its encrypted-seed file is missing, and with an
invalid-password error — a different error constructor, hence
distinguishable — when the directory exists but the stored token does not
decrypt under the key derived from the supplied password and the persisted
salt.  An error result carries no state, so a failed load leaves the index
entry for the name absent or unchanged, never half-written. -/
theorem load_coldkey_errors_spec (rnd : Salt) (st : WalletState)
    (name password : String) :
    ((alookup st.fs name = none ∨
        ∃ d, alookup st.fs name = some d ∧ d.mnemonic_enc = none) →
      ∃ m, load_coldkey rnd st name password = .error (.notFound m)) ∧
    (∀ d tok s, alookup st.fs name = some d → d.mnemonic_enc = some tok →
      d.salt = some s → tok.key ≠ generate_encryption_key password s →
      ∃ m, load_coldkey rnd st name password = .error (.invalidPassword m)) ∧
    (∀ m m', KMError.notFound m ≠ KMError.invalidPassword m') := by
  refine ⟨?_, ?_, ?_⟩
  · rintro (hd | ⟨d, hd, hm⟩)
    · exact ⟨_, by unfold load_coldkey; rw [hd]⟩
    · refine ⟨"mnemonic.enc for '" ++ name ++ "' not found.", ?_⟩
      unfold load_coldkey
      rw [hd]
      simp only []
      rw [hm]
  · intro d tok s hd hm hs hk
    refine ⟨"Invalid password: failed to decrypt mnemonic for '" ++ name ++
      "'.", ?_⟩
    unfold load_coldkey
    rw [hd]
    simp only []
    rw [hm]
    simp only [get_cipher_suite, get_or_create_salt, Option.getD_some, hs,
      CipherSuite.decrypt]
    rw [if_neg hk]
  · intro m m' hc
    exact KMError.noConfusion hc

theorem load_coldkey_errors_spec_witness :
    (∃ m, load_coldkey rnd16 st0 "nope" "pw" = .error (.notFound m)) ∧
    (∃ m, load_coldkey rnd16 stA "ck" "wrong" =
      .error (.invalidPassword m)) :=
  ⟨(load_coldkey_errors_spec rnd16 st0 "nope" "pw").1 (Or.inl rfl),
   (load_coldkey_errors_spec rnd16 stA "ck" "wrong").2.1 dir0
     (ck0.encrypt [1, 2]) rnd16 rfl rfl rfl (by decide)⟩

theorem load_coldkey_ok_of (rnd2 : Salt) (st : WalletState)
    (name password : String) (d : ColdkeyDir) (s : Salt) (tok : Token)
    (hd : alookup st.fs name = some d) (hm : d.mnemonic_enc = some tok)
    (hs : d.salt = some s)
    (hk : tok.key = generate_encryption_key password s) :
    load_coldkey rnd2 st name password =
      .ok { fs := ainsert st.fs name d,
            coldkeys := ainsert st.coldkeys name
              ⟨tok.payload, ⟨generate_encryption_key password s⟩,
               (d.hotkeys_json.getD ⟨[]⟩).hotkeys⟩ } := by
  unfold load_coldkey
  rw [hd]
  simp only []
  rw [hm]
  simp only [get_cipher_suite, get_or_create_salt, Option.getD_some, hs,
    CipherSuite.decrypt, hk, if_pos]

/-- C3: for every coldkey produced by a successful `create_coldkey`, removing
its entry from the in-memory index and loading it back with the same password
succeeds and restores an index entry equal to the one creation produced; in
particular the entry again contains the wallet material. -/
theorem load_after_create_spec (seed : Bytes) (rnd rnd2 : Salt)
    (st st1 : WalletState) (name password : String)
    (h1 : create_coldkey seed rnd st name password = .ok st1) :
    ∃ st2, load_coldkey rnd2
        { st1 with coldkeys := aerase st1.coldkeys name } name password =
        .ok st2 ∧
      alookup st2.coldkeys name = alookup st1.coldkeys name ∧
      ∃ e, alookup st2.coldkeys name = some e ∧ e.wallet = seed := by
  unfold create_coldkey at h1
  by_cases hdup : (alookup st.coldkeys name).isSome = true
  · rw [if_pos hdup] at h1
    exact Except.noConfusion h1
  · rw [if_neg hdup] at h1
    simp only [Except.ok.injEq] at h1
    subst h1
    refine ⟨_, load_coldkey_ok_of rnd2 _ name password _
      (get_or_create_salt rnd (alookup st.fs name)).1 _
      (alookup_ainsert_self _ _ _) rfl
      (gocs_salt_eq rnd (alookup st.fs name)) rfl, ?_, ?_⟩
    · simp only [alookup_ainsert_self]
      rfl
    · exact ⟨_, alookup_ainsert_self _ _ _, rfl⟩

theorem load_after_create_spec_witness :
    create_coldkey [1, 2] rnd16 st0 "ck" "pw" = .ok stA ∧
    (∃ st2, load_coldkey rnd16
        { stA with coldkeys := aerase stA.coldkeys "ck" } "ck" "pw" =
        .ok st2 ∧
      alookup st2.coldkeys "ck" = alookup stA.coldkeys "ck" ∧
      ∃ e, alookup st2.coldkeys "ck" = some e ∧ e.wallet = [1, 2]) :=
  ⟨rfl, load_after_create_spec [1, 2] rnd16 rnd16 st0 stA "ck" "pw" rfl⟩

/-- Witness hotkey entry stored under the coldkey of `stB`. -/
def hk0 : HotkeyEntry := ⟨"addr1", ck0.encrypt [7]⟩

/-- Witness index entry holding the hotkey "hot". -/
def entry1 : ColdkeyEntry := ⟨[1, 2], ck0, [("hot", hk0)]⟩

/-- Witness coldkey directory whose registry holds the hotkey "hot". -/
def dirB : ColdkeyDir :=
  ⟨some rnd16, some (ck0.encrypt [1, 2]), some ⟨[("hot", hk0)]⟩⟩

/-- Witness state whose coldkey "ck" already has the hotkey "hot". -/
def stB : WalletState := ⟨[("ck", dirB)], [("ck", entry1)]⟩

/-- Concrete derivation collaborator used by the witnesses. -/
def derive0 : Bytes → String → String × Bytes := fun w n => (n, w)

/-- Concrete encrypted payload used by the import witness. -/
def tok7 : Token := ck0.encrypt [9]

/-- C5: for every coldkey present in the in-memory index (with its directory
on disk) and every hotkey name not yet under it, `generate_hotkey` adds an
address/encrypted-data entry for the hotkey name both to the in-memory
hotkeys map and to the on-disk registry file, and returns exactly the
encrypted payload stored on disk. -/
theorem generate_hotkey_spec (derive : Bytes → String → String × Bytes)
    (st : WalletState) (ck hk : String) (entry : ColdkeyEntry)
    (d : ColdkeyDir) (hck : alookup st.coldkeys ck = some entry)
    (hfresh : alookup entry.hotkeys hk = none)
    (hd : alookup st.fs ck = some d) :
    ∃ enc st', generate_hotkey derive st ck hk = .ok (enc, st') ∧
      (∃ e', alookup st'.coldkeys ck = some e' ∧
        ∃ h', alookup e'.hotkeys hk = some h' ∧ h'.encrypted_data = enc ∧
          h'.address = (derive entry.wallet hk).1) ∧
      (∃ d', alookup st'.fs ck = some d' ∧
        ∃ reg, d'.hotkeys_json = some reg ∧
          ∃ h2, alookup reg.hotkeys hk = some h2 ∧
            h2.encrypted_data = enc) := by
  have hgen : generate_hotkey derive st ck hk = .ok
      (entry.cipher.encrypt (derive entry.wallet hk).2,
       { fs := ainsert st.fs ck
           { d with hotkeys_json := some ⟨ainsert entry.hotkeys hk
               ⟨(derive entry.wallet hk).1,
                entry.cipher.encrypt (derive entry.wallet hk).2⟩⟩ },
         coldkeys := ainsert st.coldkeys ck
           { entry with hotkeys := (ainsert entry.hotkeys hk
               ⟨(derive entry.wallet hk).1,
                entry.cipher.encrypt (derive entry.wallet hk).2⟩) } }) := by
    simp only [generate_hotkey, write_registry, hck, hfresh, hd,
      Option.isSome_none, Bool.false_eq_true, if_false]
  exact ⟨_, _, hgen,
    ⟨_, alookup_ainsert_self _ _ _, _, alookup_ainsert_self _ _ _, rfl, rfl⟩,
    ⟨_, alookup_ainsert_self _ _ _, _, rfl, _,
      alookup_ainsert_self _ _ _, rfl⟩⟩

theorem generate_hotkey_spec_witness :
    alookup stA.coldkeys "ck" = some entry0 ∧
    alookup entry0.hotkeys "hot" = none ∧
    alookup stA.fs "ck" = some dir0 ∧
    (∃ enc st', generate_hotkey derive0 stA "ck" "hot" = .ok (enc, st') ∧
      (∃ e', alookup st'.coldkeys "ck" = some e' ∧
        ∃ h', alookup e'.hotkeys "hot" = some h' ∧ h'.encrypted_data = enc ∧
          h'.address = (derive0 entry0.wallet "hot").1) ∧
      (∃ d', alookup st'.fs "ck" = some d' ∧
        ∃ reg, d'.hotkeys_json = some reg ∧
          ∃ h2, alookup reg.hotkeys "hot" = some h2 ∧
            h2.encrypted_data = enc)) :=
  ⟨rfl, rfl, rfl,
    generate_hotkey_spec derive0 stA "ck" "hot" entry0 dir0 rfl rfl rfl⟩

/-- C6: for every coldkey present in the index whose hotkeys map already
holds the hotkey name, `generate_hotkey` fails with a duplicate error.  The
duplicate test precedes every mutation and the error result carries no state,
so neither the in-memory map nor the registry file changes. -/
theorem generate_hotkey_duplicate_spec
    (derive : Bytes → String → String × Bytes) (st : WalletState)
    (ck hk : String) (entry : ColdkeyEntry) (h0 : HotkeyEntry)
    (hck : alookup st.coldkeys ck = some entry)
    (hdup : alookup entry.hotkeys hk = some h0) :
    ∃ m, generate_hotkey derive st ck hk = .error (.duplicate m) := by
  refine ⟨"Hotkey '" ++ hk ++ "' already exists.", ?_⟩
  unfold generate_hotkey
  rw [hck]
  simp only []
  rw [hdup]
  rfl

theorem generate_hotkey_duplicate_spec_witness :
    alookup stB.coldkeys "ck" = some entry1 ∧
    alookup entry1.hotkeys "hot" = some hk0 ∧
    ∃ m, generate_hotkey derive0 stB "ck" "hot" = .error (.duplicate m) :=
  ⟨rfl, rfl,
    generate_hotkey_duplicate_spec derive0 stB "ck" "hot" entry1 hk0 rfl rfl⟩

/-- C7: for every hotkey name that already exists under a loaded coldkey,
an import with `overwrite = false` consults the interactive answer, whose
affirmative forms are exactly the case-insensitive "yes" and "y"; on a
declined answer it mutates nothing, flags the canceled-overwrite warning and
returns without error, and on an affirmative answer or `overwrite = true` it
replaces the stored `encrypted_data` in the in-memory map and in the
registry file. -/
theorem import_hotkey_overwrite_spec
    (derive : Bytes → String → String × Bytes) (answer : String)
    (st : WalletState) (ck : String) (ed : Token) (hk : String)
    (entry : ColdkeyEntry) (old : HotkeyEntry)
    (hck : alookup st.coldkeys ck = some entry)
    (hex : alookup entry.hotkeys hk = some old) :
    (is_affirmative answer = true ↔
      lower_string answer = "yes" ∨ lower_string answer = "y") ∧
    (is_affirmative answer = false →
      (import_hotkey derive answer st ck ed hk false = .ok ⟨st, true⟩)) ∧
    (∀ ov : Bool, ov = true ∨ is_affirmative answer = true →
      ∃ r, import_hotkey derive answer st ck ed hk ov = .ok r ∧
        r.warned = false ∧
        (∃ e', alookup r.state.coldkeys ck = some e' ∧
          ∃ h', alookup e'.hotkeys hk = some h' ∧ h'.encrypted_data = ed) ∧
        (∀ d, alookup st.fs ck = some d →
          ∃ d', alookup r.state.fs ck = some d' ∧
            ∃ reg, d'.hotkeys_json = some reg ∧
              ∃ h2, alookup reg.hotkeys hk = some h2 ∧
                h2.encrypted_data = ed)) := by
  refine ⟨?_, ?_, ?_⟩
  · simp [is_affirmative]
  · intro hno
    unfold import_hotkey
    rw [hck]
    simp only []
    rw [hex]
    simp only [hno, Bool.false_or, Bool.or_false]
    rfl
  · intro ov hyes
    have hcond : (ov || is_affirmative answer) = true := by
      rcases hyes with h | h <;> simp [h]
    have himp : import_hotkey derive answer st ck ed hk ov = .ok
        ⟨{ fs := write_registry st.fs ck
             (ainsert entry.hotkeys hk ⟨old.address, ed⟩),
           coldkeys := ainsert st.coldkeys ck
             { entry with
               hotkeys := ainsert entry.hotkeys hk ⟨old.address, ed⟩ } },
         false⟩ := by
      unfold import_hotkey
      rw [hck]
      simp only []
      rw [hex]
      simp only [hcond]
      rfl
    refine ⟨_, himp, rfl,
      ⟨_, alookup_ainsert_self _ _ _, _, alookup_ainsert_self _ _ _, rfl⟩,
      ?_⟩
    intro d hd
    unfold write_registry
    rw [hd]
    exact ⟨_, alookup_ainsert_self _ _ _, _, rfl, _,
      alookup_ainsert_self _ _ _, rfl⟩

theorem import_hotkey_overwrite_spec_witness :
    is_affirmative "no" = false ∧
    (import_hotkey derive0 "no" stB "ck" tok7 "hot" false =
      .ok ⟨stB, true⟩) ∧
    is_affirmative "Yes" = true ∧
    (∃ r, import_hotkey derive0 "Yes" stB "ck" tok7 "hot" false = .ok r ∧
      r.warned = false ∧
      (∃ e', alookup r.state.coldkeys "ck" = some e' ∧
        ∃ h', alookup e'.hotkeys "hot" = some h' ∧
          h'.encrypted_data = tok7) ∧
      (∀ d, alookup stB.fs "ck" = some d →
        ∃ d', alookup r.state.fs "ck" = some d' ∧
          ∃ reg, d'.hotkeys_json = some reg ∧
            ∃ h2, alookup reg.hotkeys "hot" = some h2 ∧
              h2.encrypted_data = tok7)) :=
  ⟨by decide,
   (import_hotkey_overwrite_spec derive0 "no" stB "ck" tok7 "hot" entry1 hk0
     rfl rfl).2.1 (by decide),
   by decide,
   (import_hotkey_overwrite_spec derive0 "Yes" stB "ck" tok7 "hot" entry1 hk0
     rfl rfl).2.2 false (Or.inr (by decide))⟩

/-- C9: for every byte payload and every cipher suite obtained from
`get_cipher_suite`, decrypting the encryption of the payload under the same
suite returns exactly the payload. -/
theorem cipher_suite_roundtrip (x : Bytes) (rnd : Salt) (password : String)
    (d : Option ColdkeyDir) :
    (get_cipher_suite rnd password d).1.decrypt
      ((get_cipher_suite rnd password d).1.encrypt x) = some x := by
  simp [CipherSuite.decrypt, CipherSuite.encrypt]

/-- C10: every operation of `BaseRepository` returns `None` for every model
type and every argument value; the repository is an unimplemented stub, and
since none of the operations produce a new repository or touch any other
state, no state is mutated. -/
theorem base_repository_stub (T V : Type) (r : BaseRepository T) (id : Int)
    (eager : Bool) (schema : T) (fld : String) (v : V) :
    r.read_by_id id eager = none ∧ r.create schema = none ∧
    r.update id schema = none ∧ r.update_attr id fld v = none ∧
    r.whole_update id schema = none ∧ r.delete_by_id id = none :=
  ⟨rfl, rfl, rfl, rfl, rfl, rfl⟩

end Moderntensor


